import Mathlib

/-!
# Verification of the `lexical_bool` crate

A shallow embedding of `src/lib.rs` of the `lexical_bool` crate.

The crate keeps two thread-local `OnceCell<Vec<String>>` cells
(`TRUE_VALUES`, `FALSE_VALUES`).  We model one thread ("execution
context") as a `Ctx` record holding the two cells as `Option`s, and
every operation passes the context explicitly: `initialize_true_values`
and `initialize_false_values` return the `bool` result of `OnceCell::set`
together with the updated context, and `from_str` (the `FromStr` impl of
`LexicalBool`) returns a `Except Error LexicalBool` together with the
updated context (parsing can lazily populate the cells).
-/

namespace LexicalBool

/-- One character of Rust `str::to_ascii_lowercase`: ASCII capital letters
(code points 65–90) are shifted down to the lowercase letters (97–122);
every other character is unchanged. -/
def asciiLowerChar (c : Char) : Char :=
  if 65 ≤ c.toNat ∧ c.toNat ≤ 90 then Char.ofNat (c.toNat + 32) else c

/-- Rust `str::to_ascii_lowercase`, character by character. -/
def to_ascii_lowercase (s : String) : String :=
  ⟨s.data.map asciiLowerChar⟩

/-- The default truth-y values, `TRUTHY_VALUES` in `lib.rs`. -/
def TRUTHY_VALUES : List String := ["true", "t", "1", "yes"]

/-- The default false-y values, `FALSEY_VALUES` in `lib.rs`. -/
def FALSEY_VALUES : List String := ["false", "f", "0", "no"]

/-- One execution context (thread): the two thread-local
`OnceCell<Vec<String>>` cells, `none` modelling an unset cell. -/
structure Ctx where
  TRUE_VALUES : Option (List String)
  FALSE_VALUES : Option (List String)
  deriving Repr, DecidableEq

/-- A context at thread start: both cells unset. -/
def freshCtx : Ctx := ⟨none, none⟩

/-- `OnceCell::set` (as used through `.is_ok()`): stores the value and
returns `true` iff the cell was unset; otherwise the cell is unchanged
and the offered value is discarded. -/
def cellSet (cell : Option (List String)) (v : List String) :
    Bool × Option (List String) :=
  match cell with
  | none => (true, some v)
  | some w => (false, some w)

/-- `OnceCell::get_or_init`: returns the stored value, storing the
supplied default first when the cell was unset. -/
def cellGetOrInit (cell : Option (List String)) (v : List String) :
    List String × Option (List String) :=
  match cell with
  | none => (v, some v)
  | some w => (w, some w)

/-- `initialize_true_values` from `lib.rs` (the `ToString` mapping of the
iterator is the identity once the items are strings). -/
def initialize_true_values (values : List String) (ctx : Ctx) : Bool × Ctx :=
  let p := cellSet ctx.TRUE_VALUES values
  (p.1, { ctx with TRUE_VALUES := p.2 })

/-- `initialize_false_values` from `lib.rs`. -/
def initialize_false_values (values : List String) (ctx : Ctx) : Bool × Ctx :=
  let p := cellSet ctx.FALSE_VALUES values
  (p.1, { ctx with FALSE_VALUES := p.2 })

/-- The `LexicalBool(bool)` newtype. -/
structure LB where
  val : Bool
  deriving Repr, DecidableEq

/-- The `Deref` impl of `LexicalBool`. -/
def LB.deref (lb : LB) : Bool := lb.val

/-- The `PartialEq<bool>` impl of `LexicalBool`. -/
def LB.eqBool (lb : LB) (other : Bool) : Bool := other == lb.val

/-- The error enum of `lib.rs`. -/
inductive Error where
  | InvalidInput (input : String)
  deriving Repr, DecidableEq

/-- `<LexicalBool as FromStr>::from_str`.  The input is ASCII-lowercased;
the truthy cell is read (lazily initialized to `TRUTHY_VALUES`) and on a
match `Ok(LexicalBool(true))` is returned at once; only otherwise is the
falsey cell read (lazily initialized to `FALSEY_VALUES`), yielding
`Ok(LexicalBool(false))` on a match and `Err(InvalidInput(s))` with the
original, un-lowercased input when neither list matched. -/
def from_str (s : String) (ctx : Ctx) : Except Error LB × Ctx :=
  let e := to_ascii_lowercase s
  let t := cellGetOrInit ctx.TRUE_VALUES TRUTHY_VALUES
  let ctx1 : Ctx := { ctx with TRUE_VALUES := t.2 }
  if t.1.any (fun k => k == e) then
    (Except.ok ⟨true⟩, ctx1)
  else
    let f := cellGetOrInit ctx1.FALSE_VALUES FALSEY_VALUES
    let ctx2 : Ctx := { ctx1 with FALSE_VALUES := f.2 }
    if f.1.any (fun k => k == e) then
      (Except.ok ⟨false⟩, ctx2)
    else
      (Except.error (Error.InvalidInput s), ctx2)

/-- A single-quote character (code point 39) as a string. -/
def squote : String := String.mk [Char.ofNat 39]

/-- The `Display` impl of `Error`: the message lists every default truthy
then falsey token, each rendered between one leading and two trailing
single quotes, comma-separated via the source's `fold`. -/
def Error.display : Error → String
  | Error.InvalidInput input =>
    "not a boolean: " ++ input ++ ". only " ++
      (((TRUTHY_VALUES ++ FALSEY_VALUES).map
            (fun val => squote ++ val ++ squote ++ squote)).foldl
          (fun a b => (if a.isEmpty then a else a ++ ", ") ++ b) "") ++
      " are allowed"

/-- Decidable equality for parse results, so witnesses can `decide`. -/
instance {ε α : Type} [DecidableEq ε] [DecidableEq α] : DecidableEq (Except ε α) :=
  fun x y =>
    match x, y with
    | Except.ok a, Except.ok b =>
        if h : a = b then Decidable.isTrue (congrArg Except.ok h)
        else Decidable.isFalse (fun hc => h (Except.ok.inj hc))
    | Except.error a, Except.error b =>
        if h : a = b then Decidable.isTrue (congrArg Except.error h)
        else Decidable.isFalse (fun hc => h (Except.error.inj hc))
    | Except.ok _, Except.error _ => Decidable.isFalse (fun hc => Except.noConfusion hc)
    | Except.error _, Except.ok _ => Decidable.isFalse (fun hc => Except.noConfusion hc)

/-- The truthy list `from_str` will compare against in context `ctx`:
the stored list when set, the defaults otherwise. -/
def resolvedTrue (ctx : Ctx) : List String := ctx.TRUE_VALUES.getD TRUTHY_VALUES

/-- The falsey list `from_str` would compare against in context `ctx`. -/
def resolvedFalse (ctx : Ctx) : List String := ctx.FALSE_VALUES.getD FALSEY_VALUES

/-- Written from the spec's words, to be compared with `Error.display`:
`not a boolean: <input>. only <list> are allowed`, where `<list>` is the
comma-and-space-separated rendering of every default truthy token followed
by every default falsey token, each rendered as a single opening quote,
the token, and a doubled trailing quote. -/
def specMessage (input : String) : String :=
  "not a boolean: " ++ input ++ ". only " ++
    String.intercalate ", "
      ((TRUTHY_VALUES ++ FALSEY_VALUES).map
        (fun tok => squote ++ tok ++ squote ++ squote)) ++
    " are allowed"

lemma from_str_eq (s : String) (ctx : Ctx) :
    from_str s ctx =
      if (resolvedTrue ctx).any (fun k => k == to_ascii_lowercase s) then
        (Except.ok ⟨true⟩, ⟨some (resolvedTrue ctx), ctx.FALSE_VALUES⟩)
      else if (resolvedFalse ctx).any (fun k => k == to_ascii_lowercase s) then
        (Except.ok ⟨false⟩, ⟨some (resolvedTrue ctx), some (resolvedFalse ctx)⟩)
      else
        (Except.error (Error.InvalidInput s),
          ⟨some (resolvedTrue ctx), some (resolvedFalse ctx)⟩) := by
  cases ctx with
  | mk t f => cases t <;> cases f <;> rfl

lemma any_beq_of_mem {l : List String} {e : String} (h : e ∈ l) :
    l.any (fun k => k == e) = true := by
  simp only [List.any_eq_true, beq_iff_eq]
  exact ⟨e, h, rfl⟩

lemma any_beq_eq_false {l : List String} {e : String} (h : e ∉ l) :
    l.any (fun k => k == e) = false := by
  simp only [List.any_eq_false, beq_iff_eq]
  intro x hx hxe
  exact h (hxe ▸ hx)

lemma parse_true_iff (ctx : Ctx) (s : String) :
    (from_str s ctx).1 = Except.ok ⟨true⟩ ↔
      to_ascii_lowercase s ∈ resolvedTrue ctx := by
  rw [from_str_eq]
  by_cases h1 : to_ascii_lowercase s ∈ resolvedTrue ctx
  · simp [any_beq_of_mem h1, h1]
  · rw [any_beq_eq_false h1]
    by_cases h2 : to_ascii_lowercase s ∈ resolvedFalse ctx
    · simp [any_beq_of_mem h2, h1]
    · simp [any_beq_eq_false h2, h1]

lemma parse_false_iff (ctx : Ctx) (s : String) :
    (from_str s ctx).1 = Except.ok ⟨false⟩ ↔
      (to_ascii_lowercase s ∉ resolvedTrue ctx ∧
        to_ascii_lowercase s ∈ resolvedFalse ctx) := by
  rw [from_str_eq]
  by_cases h1 : to_ascii_lowercase s ∈ resolvedTrue ctx
  · simp [any_beq_of_mem h1, h1]
  · rw [any_beq_eq_false h1]
    by_cases h2 : to_ascii_lowercase s ∈ resolvedFalse ctx
    · simp [any_beq_of_mem h2, h1, h2]
    · simp [any_beq_eq_false h2, h1, h2]

lemma parse_error_iff (ctx : Ctx) (s : String) :
    (from_str s ctx).1 = Except.error (Error.InvalidInput s) ↔
      (to_ascii_lowercase s ∉ resolvedTrue ctx ∧
        to_ascii_lowercase s ∉ resolvedFalse ctx) := by
  rw [from_str_eq]
  by_cases h1 : to_ascii_lowercase s ∈ resolvedTrue ctx
  · simp [any_beq_of_mem h1, h1]
  · rw [any_beq_eq_false h1]
    by_cases h2 : to_ascii_lowercase s ∈ resolvedFalse ctx
    · simp [any_beq_of_mem h2, h1, h2]
    · simp [any_beq_eq_false h2, h1, h2]

lemma from_str_state (ctx : Ctx) (s : String) :
    (from_str s ctx).2 =
      ⟨some (resolvedTrue ctx),
        if to_ascii_lowercase s ∈ resolvedTrue ctx then ctx.FALSE_VALUES
        else some (resolvedFalse ctx)⟩ := by
  rw [from_str_eq]
  by_cases h1 : to_ascii_lowercase s ∈ resolvedTrue ctx
  · simp [any_beq_of_mem h1, h1]
  · rw [any_beq_eq_false h1]
    by_cases h2 : to_ascii_lowercase s ∈ resolvedFalse ctx
    · simp [any_beq_of_mem h2, h1]
    · simp [any_beq_eq_false h2, h1]

lemma toNat_ofNat_of_lt {n : Nat} (h : n < 55296) : (Char.ofNat n).toNat = n := by
  have hv : n.isValidChar := Or.inl (by omega)
  simp only [Char.ofNat, dif_pos hv]
  rfl

/-- The result of `asciiLowerChar` is never an ASCII capital letter. -/
lemma asciiLowerChar_not_upper (d : Char) :
    ¬(65 ≤ (asciiLowerChar d).toNat ∧ (asciiLowerChar d).toNat ≤ 90) := by
  unfold asciiLowerChar
  by_cases h : 65 ≤ d.toNat ∧ d.toNat ≤ 90
  · rw [if_pos h]
    rw [toNat_ofNat_of_lt (by omega)]
    omega
  · rw [if_neg h]
    exact h

/-- No input ASCII-lowercases to a string containing an ASCII capital. -/
lemma lower_ne_of_upper {t : String}
    (hup : ∃ c ∈ t.data, 65 ≤ c.toNat ∧ c.toNat ≤ 90) (s : String) :
    to_ascii_lowercase s ≠ t := by
  intro he
  obtain ⟨c, hc, h1, h2⟩ := hup
  have hdata : t.data = s.data.map asciiLowerChar := by
    rw [← he]
    rfl
  rw [hdata] at hc
  obtain ⟨d, _, hmap⟩ := List.mem_map.mp hc
  exact asciiLowerChar_not_upper d (by rw [hmap]; exact ⟨h1, h2⟩)

lemma not_mem_truthy_of_mem_falsey {e : String} (h : e ∈ FALSEY_VALUES) :
    e ∉ TRUTHY_VALUES := by
  simp only [FALSEY_VALUES, List.mem_cons, List.not_mem_nil, or_false] at h
  rcases h with rfl | rfl | rfl | rfl <;> decide

/-- C1: in a context whose truthy (resp. falsey) cell was never explicitly
set — i.e. the cell is unset or holds the lazily-copied defaults — every
input that ASCII-lowercases to a default truthy token parses to
`LexicalBool(true)`, and every input that ASCII-lowercases to a default
falsey token parses to `LexicalBool(false)`.  Since `asciiLowerChar` only
moves ASCII capitals, the inputs lowercasing to a token are exactly its
ASCII case permutations. -/
theorem c1_default_tokens_case_insensitive (ctx : Ctx) (s : String)
    (ht : ctx.TRUE_VALUES = none ∨ ctx.TRUE_VALUES = some TRUTHY_VALUES)
    (hf : ctx.FALSE_VALUES = none ∨ ctx.FALSE_VALUES = some FALSEY_VALUES) :
    (to_ascii_lowercase s ∈ TRUTHY_VALUES →
      (from_str s ctx).1 = Except.ok ⟨true⟩) ∧
    (to_ascii_lowercase s ∈ FALSEY_VALUES →
      (from_str s ctx).1 = Except.ok ⟨false⟩) := by
  have htr : resolvedTrue ctx = TRUTHY_VALUES := by
    rcases ht with h | h <;> simp [resolvedTrue, h]
  have hfr : resolvedFalse ctx = FALSEY_VALUES := by
    rcases hf with h | h <;> simp [resolvedFalse, h]
  constructor
  · intro hm
    rw [parse_true_iff, htr]
    exact hm
  · intro hm
    rw [parse_false_iff, htr, hfr]
    exact ⟨not_mem_truthy_of_mem_falsey hm, hm⟩

/-- C1 witness: `"TRUE"` parses to `true` and `"No"` parses to `false` in a
fresh context. -/
theorem c1_witness :
    (from_str "TRUE" freshCtx).1 = Except.ok ⟨true⟩ ∧
    (from_str "No" freshCtx).1 = Except.ok ⟨false⟩ :=
  ⟨(c1_default_tokens_case_insensitive freshCtx "TRUE"
      (Or.inl rfl) (Or.inl rfl)).1 (by decide),
    (c1_default_tokens_case_insensitive freshCtx "No"
      (Or.inl rfl) (Or.inl rfl)).2 (by decide)⟩

/-- C2: whenever the lowercased input is in neither the resolved truthy
list nor the resolved falsey list (custom when set, lazily defaulted
otherwise), `from_str` fails with `InvalidInput` carrying exactly the
original, pre-lowering input string. -/
theorem c2_invalid_input_carries_original (ctx : Ctx) (s : String)
    (ht : to_ascii_lowercase s ∉ resolvedTrue ctx)
    (hf : to_ascii_lowercase s ∉ resolvedFalse ctx) :
    (from_str s ctx).1 = Except.error (Error.InvalidInput s) :=
  (parse_error_iff ctx s).mpr ⟨ht, hf⟩

/-- C2 witness: `"MayBe"` fails, the error carrying `"MayBe"` itself (not
its lowercased form `"maybe"`). -/
theorem c2_witness :
    (from_str "MayBe" freshCtx).1 = Except.error (Error.InvalidInput "MayBe") :=
  c2_invalid_input_carries_original freshCtx "MayBe" (by decide) (by decide)

/-- C3: in a fresh context the first `initialize_true_values` call returns
`true` and stores its values; a second call with any values returns
`false` and leaves the whole context unchanged, so every parse gives the
same result before and after it.  Symmetrically for
`initialize_false_values`.  Both calls return a plain `Bool` (never an
error), by the very type of the embedding. -/
theorem c3_initialize_first_writer_wins (ctx : Ctx)
    (vs ws vs2 ws2 : List String) (s : String)
    (ht : ctx.TRUE_VALUES = none) (hf : ctx.FALSE_VALUES = none) :
    (initialize_true_values vs ctx).1 = true ∧
    ((initialize_true_values vs ctx).2).TRUE_VALUES = some vs ∧
    (initialize_true_values ws (initialize_true_values vs ctx).2).1 = false ∧
    (initialize_true_values ws (initialize_true_values vs ctx).2).2
      = (initialize_true_values vs ctx).2 ∧
    (from_str s (initialize_true_values ws (initialize_true_values vs ctx).2).2
      = from_str s (initialize_true_values vs ctx).2) ∧
    (initialize_false_values vs2 ctx).1 = true ∧
    ((initialize_false_values vs2 ctx).2).FALSE_VALUES = some vs2 ∧
    (initialize_false_values ws2 (initialize_false_values vs2 ctx).2).1 = false ∧
    (initialize_false_values ws2 (initialize_false_values vs2 ctx).2).2
      = (initialize_false_values vs2 ctx).2 := by
  cases ctx with
  | mk t f =>
    simp only [Ctx.mk.injEq] at ht hf
    subst ht
    subst hf
    exact ⟨rfl, rfl, rfl, rfl, rfl, rfl, rfl, rfl, rfl⟩

/-- C3 witness at concrete values in the fresh context. -/
theorem c3_witness :
    (initialize_true_values ["a"] freshCtx).1 = true ∧
    (initialize_true_values ["b"] (initialize_true_values ["a"] freshCtx).2).1
      = false ∧
    (initialize_false_values ["c"] freshCtx).1 = true ∧
    (initialize_false_values ["d"] (initialize_false_values ["c"] freshCtx).2).1
      = false := by
  have h := c3_initialize_first_writer_wins freshCtx ["a"] ["b"] ["c"] ["d"]
    "x" rfl rfl
  exact ⟨h.1, h.2.2.1, h.2.2.2.2.2.1, h.2.2.2.2.2.2.2.1⟩

/-- C4: custom tokens are stored verbatim (not lowercased); a stored token
containing an ASCII capital is matched by no input at all — no input
lowercases to it, so any successful `true` parse is matched by some other
stored token — while matching the built-in defaults stays fully
case-insensitive because they are stored lowercase. -/
theorem c4_custom_tokens_not_lowercased (ctx : Ctx) (vs : List String)
    (t : String) (ht : ctx.TRUE_VALUES = none) (_hmem : t ∈ vs)
    (hup : ∃ c ∈ t.data, 65 ≤ c.toNat ∧ c.toNat ≤ 90) :
    ((initialize_true_values vs ctx).2.TRUE_VALUES = some vs) ∧
    (∀ s : String, to_ascii_lowercase s ≠ t) ∧
    (∀ s : String,
      (from_str s (initialize_true_values vs ctx).2).1 = Except.ok ⟨true⟩ →
      ∃ u ∈ vs, u ≠ t ∧ to_ascii_lowercase s = u) ∧
    (∀ s : String, to_ascii_lowercase s ∈ TRUTHY_VALUES →
      (from_str s freshCtx).1 = Except.ok ⟨true⟩) := by
  refine ⟨?_, lower_ne_of_upper hup, ?_, ?_⟩
  · simp [initialize_true_values, cellSet, ht]
  · intro s hs
    rw [parse_true_iff] at hs
    have hres : resolvedTrue (initialize_true_values vs ctx).2 = vs := by
      simp [initialize_true_values, cellSet, ht, resolvedTrue]
    rw [hres] at hs
    exact ⟨to_ascii_lowercase s, hs, lower_ne_of_upper hup s, rfl⟩
  · intro s hs
    exact (parse_true_iff freshCtx s).mpr hs

/-- C4 witness: the token `"YEP"` is stored verbatim, and not even the
input `"YEP"` itself lowercases to it. -/
theorem c4_witness :
    (initialize_true_values ["YEP"] freshCtx).2.TRUE_VALUES = some ["YEP"] ∧
    to_ascii_lowercase "YEP" ≠ "YEP" := by
  have h := c4_custom_tokens_not_lowercased freshCtx ["YEP"] "YEP"
    rfl (by decide) (by decide)
  exact ⟨h.1, h.2.1 "YEP"⟩

/-- C5: each cell is write-once.  A parse in a context whose truthy cell
is unset fixes it to the defaults, and a later `initialize_true_values`
returns `false` and changes nothing; and a cell already holding `v`
still holds `v` after any parse or any initialize call. -/
theorem c5_write_once_even_after_lazy_default (ctx : Ctx) (s : String)
    (vs : List String) :
    (ctx.TRUE_VALUES = none →
      (from_str s ctx).2.TRUE_VALUES = some TRUTHY_VALUES ∧
      (initialize_true_values vs (from_str s ctx).2).1 = false ∧
      (initialize_true_values vs (from_str s ctx).2).2 = (from_str s ctx).2) ∧
    (∀ v, ctx.TRUE_VALUES = some v →
      (from_str s ctx).2.TRUE_VALUES = some v ∧
      (initialize_true_values vs ctx).2.TRUE_VALUES = some v) ∧
    (∀ v, ctx.FALSE_VALUES = some v →
      (from_str s ctx).2.FALSE_VALUES = some v ∧
      (initialize_false_values vs ctx).2.FALSE_VALUES = some v) := by
  refine ⟨?_, ?_, ?_⟩
  · intro h
    rw [from_str_state]
    refine ⟨by simp [resolvedTrue, h], ?_, ?_⟩ <;>
      simp [initialize_true_values, cellSet]
  · intro v h
    rw [from_str_state]
    exact ⟨by simp [resolvedTrue, h], by simp [initialize_true_values, cellSet, h]⟩
  · intro v h
    rw [from_str_state]
    constructor
    · by_cases hm : to_ascii_lowercase s ∈ resolvedTrue ctx <;>
        simp [hm, resolvedFalse, h]
    · simp [initialize_false_values, cellSet, h]

/-- C5 witness: a parse of `"x"` in the fresh context lazily fixes the
truthy cell to the defaults, and a later initialize call returns `false`. -/
theorem c5_witness :
    (from_str "x" freshCtx).2.TRUE_VALUES = some TRUTHY_VALUES ∧
    (initialize_true_values ["a"] (from_str "x" freshCtx).2).1 = false := by
  have h := c5_write_once_even_after_lazy_default freshCtx "x" ["a"]
  exact ⟨(h.1 rfl).1, (h.1 rfl).2.1⟩

/-- C6: the truthy list is tested first: an input matching it (even one
also in the falsey list) parses to `true`, and the falsey cell is left
exactly as it was — in particular, if it was unset, a later
`initialize_false_values` still returns `true`. -/
theorem c6_truthy_tested_first_falsey_untouched (ctx : Ctx) (s : String)
    (vs : List String) (hmem : to_ascii_lowercase s ∈ resolvedTrue ctx) :
    (from_str s ctx).1 = Except.ok ⟨true⟩ ∧
    (from_str s ctx).2.FALSE_VALUES = ctx.FALSE_VALUES ∧
    (ctx.FALSE_VALUES = none →
      (initialize_false_values vs (from_str s ctx).2).1 = true) := by
  refine ⟨(parse_true_iff ctx s).mpr hmem, ?_, ?_⟩
  · rw [from_str_state]
    simp [hmem]
  · intro hf
    rw [from_str_state]
    simp [hmem, hf, initialize_false_values, cellSet]

/-- C6 witness: `"x"`, lying in a custom truthy list in a context with an
unset falsey cell, parses to `true`, the falsey cell stays unset, and
`initialize_false_values` afterwards still succeeds. -/
theorem c6_witness :
    (from_str "x" (Ctx.mk (some ["x"]) none)).1 = Except.ok ⟨true⟩ ∧
    (from_str "x" (Ctx.mk (some ["x"]) none)).2.FALSE_VALUES = none ∧
    (initialize_false_values ["z"]
      (from_str "x" (Ctx.mk (some ["x"]) none)).2).1 = true := by
  have h := c6_truthy_tested_first_falsey_untouched
    (Ctx.mk (some ["x"]) none) "x" ["z"] (by decide)
  exact ⟨h.1, h.2.1, h.2.2 rfl⟩

/-- C7: the two cells are independent — an initialize call on one never
touches the other — and concretely, after a custom truthy initialization
with `["foo", "bar"]` in a fresh context, inputs lowercasing to `"foo"` or
`"bar"` parse to `true` while the default falsey tokens still parse to
`false` through the lazy default of the untouched falsey cell. -/
theorem c7_slots_independent (ctx : Ctx) (vs : List String) (s : String) :
    ((initialize_true_values vs ctx).2.FALSE_VALUES = ctx.FALSE_VALUES) ∧
    ((initialize_false_values vs ctx).2.TRUE_VALUES = ctx.TRUE_VALUES) ∧
    (to_ascii_lowercase s ∈ (["foo", "bar"] : List String) →
      (from_str s (initialize_true_values ["foo", "bar"] freshCtx).2).1
        = Except.ok ⟨true⟩) ∧
    (to_ascii_lowercase s ∈ FALSEY_VALUES →
      (from_str s (initialize_true_values ["foo", "bar"] freshCtx).2).1
        = Except.ok ⟨false⟩) := by
  refine ⟨rfl, rfl, ?_, ?_⟩
  · intro hm
    exact (parse_true_iff _ s).mpr hm
  · intro hm
    have hnot : to_ascii_lowercase s ∉ (["foo", "bar"] : List String) := by
      simp only [FALSEY_VALUES, List.mem_cons, List.not_mem_nil, or_false] at hm
      rcases hm with h | h | h | h <;> rw [h] <;> decide
    exact (parse_false_iff _ s).mpr ⟨hnot, hm⟩

/-- C7 witness: with truthy customized to `["foo", "bar"]`, `"FOO"` parses
to `true` and `"0"` still parses to `false`. -/
theorem c7_witness :
    (from_str "FOO" (initialize_true_values ["foo", "bar"] freshCtx).2).1
      = Except.ok ⟨true⟩ ∧
    (from_str "0" (initialize_true_values ["foo", "bar"] freshCtx).2).1
      = Except.ok ⟨false⟩ := by
  have h1 := c7_slots_independent freshCtx [] "FOO"
  have h2 := c7_slots_independent freshCtx [] "0"
  exact ⟨h1.2.2.1 (by decide), h2.2.2.2 (by decide)⟩

/-- C8: for every input, the rendered error message is exactly
`not a boolean: <input>. only <list> are allowed` with `<list>` the
comma-and-space-separated default truthy then falsey tokens, each between
one leading and two trailing single quotes.  `Error.display` takes no
context, so custom configured values cannot influence it. -/
theorem c8_error_message_format (s : String) :
    (Error.InvalidInput s).display = specMessage s := by
  have hmid : (((TRUTHY_VALUES ++ FALSEY_VALUES).map
          (fun val => squote ++ val ++ squote ++ squote)).foldl
        (fun a b => (if a.isEmpty then a else a ++ ", ") ++ b) "")
      = String.intercalate ", "
          ((TRUTHY_VALUES ++ FALSEY_VALUES).map
            (fun tok => squote ++ tok ++ squote ++ squote)) := by decide
  unfold Error.display specMessage
  rw [hmid]

/-- C8 witness: the message for input `"maybe"` evaluated in full. -/
theorem c8_witness :
    (Error.InvalidInput "maybe").display = specMessage "maybe" :=
  c8_error_message_format "maybe"

/-- C9: parsing is deterministic and idempotent inside one context: the
second parse of the same input returns the same result and the same
context as the first (so in particular the same `Ok` boolean or the same
`InvalidInput` error both times). -/
theorem c9_parse_idempotent (ctx : Ctx) (s : String) :
    from_str s (from_str s ctx).2 = from_str s ctx := by
  by_cases h1 : to_ascii_lowercase s ∈ resolvedTrue ctx
  · have hst : (from_str s ctx).2 = ⟨some (resolvedTrue ctx), ctx.FALSE_VALUES⟩ := by
      rw [from_str_state, if_pos h1]
    rw [hst, from_str_eq s ⟨some (resolvedTrue ctx), ctx.FALSE_VALUES⟩,
      from_str_eq s ctx]
    rfl
  · have hst : (from_str s ctx).2
        = ⟨some (resolvedTrue ctx), some (resolvedFalse ctx)⟩ := by
      rw [from_str_state, if_neg h1]
    rw [hst, from_str_eq s ⟨some (resolvedTrue ctx), some (resolvedFalse ctx)⟩,
      from_str_eq s ctx]
    have e1 : resolvedTrue ⟨some (resolvedTrue ctx), some (resolvedFalse ctx)⟩
        = resolvedTrue ctx := rfl
    have e2 : resolvedFalse ⟨some (resolvedTrue ctx), some (resolvedFalse ctx)⟩
        = resolvedFalse ctx := rfl
    simp only [e1, e2, any_beq_eq_false h1]
    by_cases h2 : to_ascii_lowercase s ∈ resolvedFalse ctx
    · simp [any_beq_of_mem h2]
    · simp [any_beq_eq_false h2]

/-- C10: initializing a slot to the empty list in a fresh context succeeds
and stores `[]`; afterwards no input at all parses on that side — with an
empty truthy list every input either matches the (resolved) falsey list,
yielding `false`, or fails with `InvalidInput` carrying the input, and
this includes the default truthy tokens; symmetrically an empty falsey
list makes a `false` parse impossible. -/
theorem c10_empty_list_blocks_side (ctx : Ctx) (s : String) :
    (ctx.TRUE_VALUES = none →
      (initialize_true_values [] ctx).1 = true ∧
      (initialize_true_values [] ctx).2.TRUE_VALUES = some [] ∧
      ((from_str s (initialize_true_values [] ctx).2).1 ≠ Except.ok ⟨true⟩) ∧
      (to_ascii_lowercase s ∈ resolvedFalse ctx →
        (from_str s (initialize_true_values [] ctx).2).1 = Except.ok ⟨false⟩) ∧
      (to_ascii_lowercase s ∉ resolvedFalse ctx →
        (from_str s (initialize_true_values [] ctx).2).1
          = Except.error (Error.InvalidInput s))) ∧
    (ctx.FALSE_VALUES = none →
      (initialize_false_values [] ctx).1 = true ∧
      (initialize_false_values [] ctx).2.FALSE_VALUES = some [] ∧
      ((from_str s (initialize_false_values [] ctx).2).1 ≠ Except.ok ⟨false⟩)) := by
  constructor
  · intro h
    have hctx : (initialize_true_values [] ctx).2 = ⟨some [], ctx.FALSE_VALUES⟩ := by
      cases ctx with
      | mk t f =>
        simp only [Ctx.mk.injEq] at h
        subst h
        rfl
    have hrT : resolvedTrue (initialize_true_values [] ctx).2 = [] := by
      rw [hctx]; rfl
    have hrF : resolvedFalse (initialize_true_values [] ctx).2 = resolvedFalse ctx := by
      rw [hctx]; rfl
    refine ⟨?_, ?_, ?_, ?_, ?_⟩
    · simp [initialize_true_values, cellSet, h]
    · rw [hctx]
    · intro hc
      rw [parse_true_iff, hrT] at hc
      exact List.not_mem_nil _ hc
    · intro hm
      rw [parse_false_iff, hrT, hrF]
      exact ⟨List.not_mem_nil _, hm⟩
    · intro hm
      rw [parse_error_iff, hrT, hrF]
      exact ⟨List.not_mem_nil _, hm⟩
  · intro h
    have hctx : (initialize_false_values [] ctx).2 = ⟨ctx.TRUE_VALUES, some []⟩ := by
      cases ctx with
      | mk t f =>
        simp only [Ctx.mk.injEq] at h
        subst h
        rfl
    have hrF : resolvedFalse (initialize_false_values [] ctx).2 = [] := by
      rw [hctx]; rfl
    refine ⟨?_, ?_, ?_⟩
    · simp [initialize_false_values, cellSet, h]
    · rw [hctx]
    · intro hc
      rw [parse_false_iff, hrF] at hc
      exact List.not_mem_nil _ hc.2

/-- C10 witness: after `initialize_true_values` with `[]` in the fresh
context, even `"true"` fails with `InvalidInput "true"`. -/
theorem c10_witness :
    (initialize_true_values [] freshCtx).1 = true ∧
    (from_str "true" (initialize_true_values [] freshCtx).2).1
      = Except.error (Error.InvalidInput "true") := by
  have h := c10_empty_list_blocks_side freshCtx "true"
  exact ⟨(h.1 rfl).1, (h.1 rfl).2.2.2.2 (by decide)⟩

end LexicalBool
